import Mathlib

/-!
Verification of the ref-fvm message-execution core against its specification.

The development shallowly embeds the Rust sources:
  * `src/fvm/src/syscalls/mod.rs`       — gas sync protocol and binding tables
  * `src/fvm/src/syscalls/debug.rs`     — debug syscalls
  * `src/fvm/src/syscalls/rand.rs`      — randomness syscalls
  * `src/fvm/src/syscalls/send.rs`      — the send syscall
  * `src/fvm/src/executor/validator.rs` — the validate executor
  * `src/ipld/hamt/src/hamt.rs`         — the HAMT wrapper

Machine integers are embedded as `Int`/`Nat` with explicit saturation or
range side conditions where the Rust width matters.  Fallible Rust code
returns `Except`.  Parts of the repository that the claims depend on but
that are not present in the given sources (`Memory::try_slice`,
`Memory::read_address`, the HAMT `Node`) are modelled from the spec and
say so in their doc comments.
-/

namespace RefFVM

/-! ## i64 arithmetic

`charge_for_exec` works on `i64` milligas values and uses
`i64::saturating_sub`, which clamps at the representable bounds of `i64`
(not at zero). -/

def i64Min : Int := -(2 ^ 63)

def i64Max : Int := 2 ^ 63 - 1

/-- Rust `i64::saturating_sub`: the exact difference, clamped into
`[i64::MIN, i64::MAX]`. -/
def saturatingSub (a b : Int) : Int :=
  let r := a - b
  if r < i64Min then i64Min else if i64Max < r then i64Max else r

/-! ## Gas accounting (syscalls/mod.rs)

`InvocationData` keeps the wasm gas global (`avail_gas_global`), the
shadow value `last_milligas_available`, and the kernel.  The kernel's
`gas_available`/`charge_gas` are not under the given sources; the ledger
side is modelled as a milligas amount available plus an accumulator of
the `"wasm_exec"` charges made through `charge_gas`. -/

structure GasKernel where
  /-- `kernel.gas_available().as_milligas()`. -/
  gas_available_milligas : Int
  /-- Total milligas charged to the host ledger under the `"wasm_exec"` label. -/
  exec_charged_milligas : Int
  deriving DecidableEq, Repr

structure InvocationData where
  kernel : GasKernel
  /-- The value of the wasm global holding remaining available gas (an `i64`). -/
  avail_gas_global : Int
  /-- The last-set milligas limit (`last_milligas_available`, an `i64`). -/
  last_milligas_available : Int
  deriving DecidableEq, Repr

/-- `update_gas_available` (syscalls/mod.rs:49-62): reads the kernel's
available gas in milligas, writes it into the wasm global, and records it
as `last_milligas_available`.  (The wasmtime `Global::set` failure path is
a type-mismatch fatal abort and cannot occur for an `I64` global; it is
not modelled.) -/
def update_gas_available (d : InvocationData) : InvocationData :=
  let avail_milligas := d.kernel.gas_available_milligas
  { d with
    avail_gas_global := avail_milligas
    last_milligas_available := avail_milligas }

/-- `charge_for_exec` (syscalls/mod.rs:65-91): reads the wasm global,
computes `milligas_used = last_milligas_available.saturating_sub(milligas_available)`,
replaces `last_milligas_available` with the value read, and charges the
kernel `Gas::from_milligas(milligas_used)` as `"wasm_exec"`.  Returns the
updated invocation data together with the milligas amount charged. -/
def charge_for_exec (d : InvocationData) : InvocationData × Int :=
  let milligas_available := d.avail_gas_global
  let milligas_used := saturatingSub d.last_milligas_available milligas_available
  let d' : InvocationData :=
    { d with
      last_milligas_available := milligas_available
      kernel :=
        { d.kernel with
          exec_charged_milligas := d.kernel.exec_charged_milligas + milligas_used } }
  (d', milligas_used)

/-! ## Syscall memory marshalling

Buffer syscall arguments arrive as `(offset, length)` pairs resolved
against the invocation's sandbox memory.  Sandbox memory is a byte
vector; bytes are `Nat` (conceptually `< 256`, the bound is irrelevant to
the claims). -/

/-- The error-number taxonomy returned to sandboxed programs
(`fvm_shared::error::ErrorNumber`); only `IllegalArgument` is
distinguished by the claims, other numbers are carried abstractly. -/
inductive ErrorNumber where
  | illegalArgument
  | otherError (code : Nat)
  deriving DecidableEq, Repr

structure Memory where
  data : List Nat
  deriving DecidableEq, Repr

/-- Modelled from the spec: `Memory::try_slice` (syscalls/context.rs is
not under the given sources).  Per the spec, buffer arguments are
"resolved against the invocation's sandbox memory with explicit bounds
checking — out-of-range access fails with an IllegalArgument condition
and performs no partial read or write": the bytes `[off, off+len)` are
returned when `off + len` fits in the memory, otherwise the call fails
with `IllegalArgument`. -/
def Memory.try_slice (mem : Memory) (off len : Nat) : Except ErrorNumber (List Nat) :=
  if off + len ≤ mem.data.length then .ok ((mem.data.drop off).take len)
  else .error .illegalArgument

/-- An address, as the raw bytes handed to `Address::from_bytes`. -/
abbrev Address := List Nat

/-- Modelled from the spec: `Memory::read_address` (syscalls/context.rs is
not under the given sources): resolves the `(offset, length)` buffer with
bounds checking and decodes an address from the bytes; a decode failure
is an `IllegalArgument` condition.  The address codec itself is out of
scope and enters as the parameter `fromBytes`. -/
def Memory.read_address (mem : Memory) (off len : Nat)
    (fromBytes : List Nat → Option Address) : Except ErrorNumber Address := do
  let bytes ← mem.try_slice off len
  match fromBytes bytes with
  | some a => .ok a
  | none => .error .illegalArgument

/-- Trace of the kernel capability operations a syscall handler performed,
used to state "the underlying kernel operation is never invoked". -/
inductive KernelOp where
  | logOp (msg : String)
  | storeArtifactOp (name : String) (data : List Nat)
  | ticketRandomnessOp (pers round : Int) (entropy : List Nat)
  | beaconRandomnessOp (pers round : Int) (entropy : List Nat)
  | sendOp (recipient : Address) (method : Nat) (params_id : Nat) (value : Nat)
  deriving DecidableEq, Repr

/-! ## Debug syscalls (syscalls/debug.rs)

The `DebugOps` capability: `debug_enabled` is a flag; `log` and
`store_artifact` act only on the host's side channels, recorded here in
the kernel-operation trace.  UTF-8 decoding of the message/name bytes is
abstracted as the parameter `utf8`. -/

structure DebugOps where
  debug_enabled : Bool
  deriving DecidableEq, Repr

/-- `Debug::log` (debug.rs:13-23): no-op when debugging is disabled;
otherwise resolves the message buffer, requires valid UTF-8
(`or_illegal_argument`), and logs through the kernel. -/
def Debug.log (k : DebugOps) (mem : Memory) (utf8 : List Nat → Option String)
    (msg_off msg_len : Nat) : Except ErrorNumber Unit × List KernelOp :=
  if !k.debug_enabled then (.ok (), [])
  else
    match mem.try_slice msg_off msg_len with
    | .error e => (.error e, [])
    | .ok msg =>
      match utf8 msg with
      | none => (.error .illegalArgument, [])
      | some s => (.ok (), [.logOp s])

/-- `Debug::enabled` (debug.rs:25-31): returns `0` when debugging is
enabled and `-1` otherwise. -/
def Debug.enabled (k : DebugOps) : Except ErrorNumber Int × List KernelOp :=
  (.ok (if k.debug_enabled then 0 else -1), [])

/-- `Debug::store_artifact` (debug.rs:33-53): no-op when debugging is
disabled; otherwise resolves the data buffer, then the name buffer,
requires the name to be valid UTF-8 (`IllegalArgument` otherwise), and
stores the artifact through the kernel. -/
def Debug.store_artifact (k : DebugOps) (mem : Memory)
    (utf8 : List Nat → Option String)
    (name_off name_len data_off data_len : Nat) :
    Except ErrorNumber Unit × List KernelOp :=
  if !k.debug_enabled then (.ok (), [])
  else
    match mem.try_slice data_off data_len with
    | .error e => (.error e, [])
    | .ok data =>
      match mem.try_slice name_off name_len with
      | .error e => (.error e, [])
      | .ok nameBytes =>
        match utf8 nameBytes with
        | none => (.error .illegalArgument, [])
        | some name => (.ok (), [.storeArtifactOp name data])

/-! ## Randomness syscalls (syscalls/rand.rs) -/

/-- The `RandomnessOps` capability: each getter maps
`(tag, round, entropy)` to 32 bytes or an error number. -/
structure RandomnessOps where
  get_randomness_from_tickets : Int → Int → List Nat → Except ErrorNumber (List Nat)
  get_randomness_from_beacon : Int → Int → List Nat → Except ErrorNumber (List Nat)

/-- `Rand::get_chain_randomness` (rand.rs:13-24): resolves the entropy
buffer, then asks the kernel for 32 bytes of ticket-chain randomness. -/
def Rand.get_chain_randomness (k : RandomnessOps) (mem : Memory)
    (pers round : Int) (entropy_off entropy_len : Nat) :
    Except ErrorNumber (List Nat) × List KernelOp :=
  match mem.try_slice entropy_off entropy_len with
  | .error e => (.error e, [])
  | .ok entropy =>
    (k.get_randomness_from_tickets pers round entropy,
     [.ticketRandomnessOp pers round entropy])

/-- `Rand::get_beacon_randomness` (rand.rs:30-41): resolves the entropy
buffer, then asks the kernel for 32 bytes of beacon randomness. -/
def Rand.get_beacon_randomness (k : RandomnessOps) (mem : Memory)
    (pers round : Int) (entropy_off entropy_len : Nat) :
    Except ErrorNumber (List Nat) × List KernelOp :=
  match mem.try_slice entropy_off entropy_len with
  | .error e => (.error e, [])
  | .ok entropy =>
    (k.get_randomness_from_beacon pers round entropy,
     [.beaconRandomnessOp pers round entropy])

/-! ## The send syscall (syscalls/send.rs) -/

/-- `BlockStat`: codec and size of a block in the registry. -/
structure BlockStat where
  codec : Nat
  size : Nat
  deriving DecidableEq, Repr

/-- `SendResult`: the kernel's send capability either returns a receipt
block (`Return(BlockId, BlockStat)`) or reports the callee aborted with
an exit code. -/
inductive SendResult where
  | sendReturn (id : Nat) (stat : BlockStat)
  | sendAbort (exit_code : Nat)
  deriving DecidableEq, Repr

/-- `sys::out::send::Send`: the fixed-size return structure of the send
syscall. -/
structure SendOut where
  exit_code : Nat
  return_id : Nat
  return_codec : Nat
  return_size : Nat
  deriving DecidableEq, Repr

/-- The `SendOps` capability: `send(recipient, method, params_id, value)`
with the value in atto tokens (a `u128` built from the two `u64` halves). -/
structure SendOps where
  send : Address → Nat → Nat → Nat → Except ErrorNumber SendResult

/-- `ExitCode::OK.value()`. -/
def exitCodeOK : Nat := 0

/-- `Send::send` (send.rs:17-46): reads the recipient address from
sandbox memory, assembles `value = (value_hi as u128) << 64 | value_lo`,
and calls the kernel's send; a kernel `Return` maps to an OK `SendOut`
carrying the receipt block's id/codec/size, an `Abort` maps to a
`SendOut` with that exit code and zeroed return fields, and a syscall
error propagates as an ordinary error result. -/
def Send.send (k : SendOps) (mem : Memory)
    (fromBytes : List Nat → Option Address)
    (recipient_off recipient_len method params_id value_hi value_lo : Nat) :
    Except ErrorNumber SendOut × List KernelOp :=
  match mem.read_address recipient_off recipient_len fromBytes with
  | .error e => (.error e, [])
  | .ok recipient =>
    let value := (value_hi <<< 64) ||| value_lo
    match k.send recipient method params_id value with
    | .error e => (.error e, [.sendOp recipient method params_id value])
    | .ok (.sendReturn id stat) =>
      (.ok { exit_code := exitCodeOK, return_id := id,
             return_codec := stat.codec, return_size := stat.size },
       [.sendOp recipient method params_id value])
    | .ok (.sendAbort code) =>
      (.ok { exit_code := code, return_id := 0,
             return_codec := 0, return_size := 0 },
       [.sendOp recipient method params_id value])

/-! ## Binding tables (syscalls/mod.rs)

`bind_syscalls` and `bind_checked_syscalls` register the `(module,
function)` names below, in source order.  The `install_actor` entry is
compiled only under the `m2-native` feature, reflected by the `m2native`
flag. -/

/-- The `(module, function)` pairs bound by `bind_syscalls`
(syscalls/mod.rs:99-181), in source order. -/
def bind_syscalls_names (m2native : Bool) : List (String × String) :=
  [("vm", "abort"), ("vm", "context"),
   ("network", "base_fee"), ("network", "total_fil_circ_supply"),
   ("ipld", "block_open"), ("ipld", "block_create"), ("ipld", "block_read"),
   ("ipld", "block_stat"), ("ipld", "block_link"),
   ("self", "root"), ("self", "set_root"), ("self", "current_balance"),
   ("self", "self_destruct"),
   ("actor", "resolve_address"), ("actor", "get_actor_code_cid"),
   ("actor", "new_actor_address"), ("actor", "create_actor"),
   ("actor", "get_builtin_actor_type"), ("actor", "get_code_cid_for_type")] ++
  (if m2native then [("actor", "install_actor")] else []) ++
  [("crypto", "verify_signature"), ("crypto", "hash"),
   ("crypto", "verify_seal"), ("crypto", "verify_post"),
   ("crypto", "compute_unsealed_sector_cid"),
   ("crypto", "verify_consensus_fault"),
   ("crypto", "verify_aggregate_seals"),
   ("crypto", "verify_replica_update"),
   ("crypto", "batch_verify_seals"),
   ("rand", "get_chain_randomness"), ("rand", "get_beacon_randomness"),
   ("gas", "charge"),
   ("send", "send"),
   ("debug", "log"), ("debug", "enabled"), ("debug", "store_artifact")]

/-- The `(module, function)` pairs bound by `bind_checked_syscalls`
(syscalls/mod.rs:184-278), in source order; every entry is registered
through `bind_checked` with the same predicate wrapper. -/
def bind_checked_syscalls_names (m2native : Bool) : List (String × String) :=
  [("vm", "abort"), ("vm", "context"),
   ("network", "base_fee"), ("network", "total_fil_circ_supply"),
   ("ipld", "block_open"), ("ipld", "block_create"), ("ipld", "block_read"),
   ("ipld", "block_stat"), ("ipld", "block_link"),
   ("self", "root"), ("self", "set_root"), ("self", "current_balance"),
   ("self", "self_destruct"),
   ("actor", "resolve_address"), ("actor", "get_actor_code_cid"),
   ("actor", "new_actor_address"), ("actor", "create_actor"),
   ("actor", "get_builtin_actor_type"), ("actor", "get_code_cid_for_type")] ++
  (if m2native then [("actor", "install_actor")] else []) ++
  [("crypto", "verify_signature"), ("crypto", "hash"),
   ("crypto", "verify_seal"), ("crypto", "verify_post"),
   ("crypto", "compute_unsealed_sector_cid"),
   ("crypto", "verify_consensus_fault"),
   ("crypto", "verify_aggregate_seals"),
   ("crypto", "verify_replica_update"),
   ("crypto", "batch_verify_seals"),
   ("rand", "get_chain_randomness"), ("rand", "get_beacon_randomness"),
   ("gas", "charge"),
   ("send", "send"),
   ("debug", "log"), ("debug", "enabled"), ("debug", "store_artifact")]

/-- The crypto functions the spec lists for the `crypto` module of the
syscall ABI surface (spec §6). -/
def spec_crypto_surface : List (String × String) :=
  [("crypto", "verify_signature"), ("crypto", "recover_secp_public_key"),
   ("crypto", "hash"), ("crypto", "verify_seal"), ("crypto", "verify_post"),
   ("crypto", "compute_unsealed_sector_cid"),
   ("crypto", "verify_consensus_fault"),
   ("crypto", "verify_aggregate_seals"),
   ("crypto", "verify_replica_update"),
   ("crypto", "batch_verify_seals")]

/-! ## The validate executor (executor/validator.rs)

`DefaultValidateExecutor::validate_message` resolves the sender through
the state tree, runs the target actor's validation entrypoint inside a
call manager transaction, and post-processes the invocation result.  The
state tree, the CBOR marshalling of `ValidateParams`, and the call
manager run (`cm.validate`) live outside the given sources and enter as
parameters: `lookup` is the result of `state_tree().lookup_id(&msg.from)`
(itself fallible), `marshal` the result of
`ValidateParams::marshal_cbor`, `outcome` what `with_transaction` plus
`cm.finish()` produced, and `decodeGasSpec` the
`RawBytes::deserialize::<GasSpec>` decoder. -/

/-- An exit code (`fvm_shared::error::ExitCode::value()`). -/
abbrev ExitCode := Nat

/-- `ExitCode::is_success()`: the OK exit code is `0`. -/
def ExitCode.is_success (c : ExitCode) : Bool := c = 0

/-- A block: a byte payload tagged with a codec. -/
structure Block where
  codec : Nat
  data : List Nat
  deriving DecidableEq, Repr

/-- `InvocationResult`: a normal return carrying an optional block, or a
failure exit code. -/
inductive InvocationResult where
  | invReturn (value : Option Block)
  | invFailure (exit_code : ExitCode)
  deriving DecidableEq, Repr

/-- `ExecutionError` as it reaches the validator: the out-of-gas variant
the code names explicitly, and everything else abstractly. -/
inductive ExecutionError where
  | outOfGas
  | otherExecError (msg : String)
  deriving DecidableEq, Repr

/-- A backtrace frame (spec data model: actor id, method, exit code,
optional message). -/
structure CallFrame where
  source : Nat
  method : Nat
  code : ExitCode
  message : String
  deriving DecidableEq, Repr

/-- `ApplyFailure`: the surfaced failure information of a message
application. -/
inductive ApplyFailure where
  | messageBacktrace (bt : List CallFrame)
  deriving DecidableEq, Repr

/-- Modelled from the spec: `GasSpec` — "fee-policy parameters returned
specifically by the validation entrypoint" (its Rust definition is not
under the given sources); carried abstractly as its decoded fields'
bytes. -/
structure GasSpec where
  fields : List Nat
  deriving DecidableEq, Repr

/-- What the call-manager run handed back through `cm.finish()`: the
transaction's result, the gas used, and the accumulated backtrace. -/
structure InvocationOutcome where
  res : Except ExecutionError InvocationResult
  gas_used : Int
  backtrace : List CallFrame
  deriving Repr

/-- The result-extraction phase of `validate_message`
(validator.rs:109-128): on a normal return the return data is extracted
and the backtrace cleared; on an OK-coded "failure" the function returns
early with the message `actor failed with status OK` (encoded as
`.error (some s)`); on any other failure or execution error the result
is `Err(())` (encoded as `.error none`) and the backtrace is kept.
Returns the result paired with the backtrace after this phase. -/
def validate_result_phase (res : Except ExecutionError InvocationResult)
    (backtrace : List CallFrame) :
    Except (Option String) (List Nat) × List CallFrame :=
  match res with
  | .ok (.invReturn value) => (.ok ((value.map Block.data).getD []), [])
  | .ok (.invFailure code) =>
    if code.is_success then (.error (some "actor failed with status OK"), backtrace)
    else (.error none, backtrace)
  | .error _ => (.error none, backtrace)

/-- The `failure_info` local of `validate_message` (validator.rs:130-134):
`Some(MessageBacktrace bt)` when the post-phase backtrace is non-empty
and the result is a failure, `None` otherwise.  The code binds this value
and never uses it afterwards. -/
def validate_failure_info (result : Except (Option String) (List Nat))
    (backtrace : List CallFrame) : Option ApplyFailure :=
  if backtrace.isEmpty || result.toBool then none
  else some (.messageBacktrace backtrace)

/-- `DefaultValidateExecutor::validate_message` (validator.rs:44-141).
A missing sender yields the placeholder error `TODO`; a marshalling
failure of `ValidateParams` is mapped to `ExecutionError::OutOfGas` and
propagated out of `map_machine` by `?`; otherwise the invocation outcome
is post-processed: failures become `actor failed to validate with TODO`,
and a successful return is deserialized as a `GasSpec`, a decode failure
becoming `failed to unmarshall return data from validate`. -/
def validate_message (lookup : Except String (Option Nat))
    (marshal : Except Unit (List Nat)) (outcome : InvocationOutcome)
    (decodeGasSpec : List Nat → Option GasSpec) : Except String GasSpec :=
  match lookup with
  | .error e => .error e
  | .ok none => .error "TODO"
  | .ok (some _) =>
    match marshal with
    | .error _ => .error "out of gas"
    | .ok _ =>
      match (validate_result_phase outcome.res outcome.backtrace).1 with
      | .error (some s) => .error s
      | .error none => .error "actor failed to validate with TODO"
      | .ok return_data =>
        match decodeGasSpec return_data with
        | some gs => .ok gs
        | none => .error "failed to unmarshall return data from validate"

/-! ## HAMT (ipld/hamt/src/hamt.rs)

`Hamt` wraps a root `Node`, a blockstore, and a bit width; `set`, `get`
and friends delegate to the node.  `crate::node::Node` is not under the
given sources and is modelled from its documented contract below. -/

/-- A blockstore as the HAMT claims need it: the claims quantify over
error-free blockstores, so the store is abstracted to whether its
operations can fail while a node operation loads cached child nodes. -/
structure Blockstore where
  error_free : Bool
  deriving DecidableEq, Repr

/-- Modelled from the spec: `crate::node::Node` (node.rs is not under
the given sources).  hamt.rs documents the contract: a `Node` is a map
from keys to values; `set` "inserts a key-value pair", returning the
previously bound value when the key was present (`None` otherwise) and
whether a write happened (for the `overwrite = false` flavor used by
`set_if_absent`, a present key is left untouched); `get` "returns a
reference to the value corresponding to the key".  The map is modelled
as an association list of bindings. -/
structure Node (K V : Type) where
  entries : List (K × V)
  deriving DecidableEq, Repr

/-- The binding of `key` in the node, if any. -/
def Node.lookup [DecidableEq K] (n : Node K V) (key : K) : Option V :=
  (n.entries.find? (fun e => e.1 = key)).map Prod.snd

/-- Modelled from the spec: `Node::get` — looks the key up, going
through the blockstore for cached child nodes (hence fallible). -/
def Node.getNode [DecidableEq K] (n : Node K V) (key : K) (store : Blockstore)
    (_bit_width : Nat) : Except String (Option V) :=
  if store.error_free then .ok (n.lookup key)
  else .error "blockstore error"

/-- Modelled from the spec: `Node::set` — inserts or (when `overwrite`)
replaces the binding of `key`, returning the new node, the previously
bound value, and whether a write happened; fallible through the
blockstore like `Node::get`. -/
def Node.setNode [DecidableEq K] (n : Node K V) (key : K) (value : V)
    (store : Blockstore) (_bit_width : Nat) (overwrite : Bool) :
    Except String (Node K V × Option V × Bool) :=
  if store.error_free then
    match n.lookup key with
    | some old =>
      if overwrite then
        .ok (⟨n.entries.map (fun e => if e.1 = key then (key, value) else e)⟩,
             some old, true)
      else .ok (n, some old, false)
    | none => .ok (⟨n.entries ++ [(key, value)]⟩, none, true)
  else .error "blockstore error"

/-- The HAMT wrapper (hamt.rs:36-42): root node, blockstore, bit width. -/
structure Hamt (K V : Type) where
  root : Node K V
  store : Blockstore
  bit_width : Nat
  deriving Repr

/-- `Hamt::set` (hamt.rs:144-151): delegates to the root node with
`overwrite = true` and keeps the previously bound value. -/
def Hamt.set [DecidableEq K] (m : Hamt K V) (key : K) (value : V) :
    Except String (Hamt K V × Option V) :=
  match m.root.setNode key value m.store m.bit_width true with
  | .error e => .error e
  | .ok (r, old, _) => .ok ({ m with root := r }, old)

/-- `Hamt::set_if_absent` (hamt.rs:179-186): delegates to the root node
with `overwrite = false` and keeps the "did set" flag. -/
def Hamt.set_if_absent [DecidableEq K] (m : Hamt K V) (key : K) (value : V) :
    Except String (Hamt K V × Bool) :=
  match m.root.setNode key value m.store m.bit_width false with
  | .error e => .error e
  | .ok (r, _, didSet) => .ok ({ m with root := r }, didSet)

/-- `Hamt::get` (hamt.rs:208-218): delegates to the root node. -/
def Hamt.get [DecidableEq K] (m : Hamt K V) (key : K) :
    Except String (Option V) :=
  match m.root.getNode key m.store m.bit_width with
  | .ok (some v) => .ok (some v)
  | .ok none => .ok none
  | .error e => .error e

/-! ## Theorems -/

/-- C7: `update_gas_available` writes the kernel's currently available
gas in milligas into the sandbox gas register and records
`last_milligas_available` equal to that same value, so the register
value and the shadow value agree at this checkpoint. -/
theorem update_gas_available_syncs (d : InvocationData) :
    (update_gas_available d).avail_gas_global = d.kernel.gas_available_milligas ∧
    (update_gas_available d).last_milligas_available = d.kernel.gas_available_milligas ∧
    (update_gas_available d).avail_gas_global =
      (update_gas_available d).last_milligas_available :=
  ⟨rfl, rfl, rfl⟩

/-- C1: the claim says the milligas amount `charge_for_exec` charges is
`last_milligas_available` minus the register value, saturated at zero,
never negative.  Evaluating the embedded code with
`last_milligas_available = 0` and the register read back as `5` (a
register value greater than `last_milligas_available`): the code charges
`-5` milligas — `i64::saturating_sub` clamps at the `i64` bounds, not at
zero — where the zero-saturated delta would be `0`; the remaining part
of the claim, that `last_milligas_available` is updated to the register
value, does hold at this input. -/
theorem charge_for_exec_negative_delta_eval :
    (charge_for_exec ⟨⟨9, 0⟩, 5, 0⟩).2 = -5 ∧
    (charge_for_exec ⟨⟨9, 0⟩, 5, 0⟩).2 < 0 ∧
    max ((0 : Int) - 5) 0 = 0 ∧
    (charge_for_exec ⟨⟨9, 0⟩, 5, 0⟩).1.last_milligas_available = 5 ∧
    (charge_for_exec ⟨⟨9, 0⟩, 5, 0⟩).1.kernel.exec_charged_milligas = -5 := by
  refine ⟨?_, ?_, ?_, ?_, ?_⟩ <;> decide

/-- C5: the unchecked binding table (`bind_syscalls`) and the checked
binding table (`bind_checked_syscalls`) register exactly the same
`(module, function)` names — as identical lists, hence as equal sets —
for either setting of the `m2-native` feature. -/
theorem bind_syscalls_names_eq_checked (m2native : Bool) :
    bind_syscalls_names m2native = bind_checked_syscalls_names m2native ∧
    ∀ p : String × String,
      p ∈ bind_syscalls_names m2native ↔ p ∈ bind_checked_syscalls_names m2native :=
  ⟨rfl, fun _ => Iff.rfl⟩

/-- C6 counterexample: `crypto.recover_secp_public_key` is listed in the
spec's crypto syscall surface but is not among the `(module, function)`
pairs bound by `bind_syscalls`, with or without the `m2-native`
feature. -/
theorem recover_secp_public_key_not_bound :
    ("crypto", "recover_secp_public_key") ∈ spec_crypto_surface ∧
    ("crypto", "recover_secp_public_key") ∉ bind_syscalls_names false ∧
    ("crypto", "recover_secp_public_key") ∉ bind_syscalls_names true :=
  ⟨by decide, by decide, by decide⟩

/-- C6 amended: the syscall ABI surface registered by `bind_syscalls`
includes every crypto function listed in the spec except
`crypto.recover_secp_public_key`, which is not among the bound
`(module, function)` pairs. -/
theorem crypto_surface_bound_except_recover (m2native : Bool) :
    (∀ p ∈ spec_crypto_surface, p ≠ ("crypto", "recover_secp_public_key") →
      p ∈ bind_syscalls_names m2native) ∧
    ("crypto", "recover_secp_public_key") ∉ bind_syscalls_names m2native := by
  cases m2native <;> exact ⟨by decide, by decide⟩

/-- Witness for the amended C6 theorem: the spec-listed `crypto.hash` is
bound. -/
theorem crypto_surface_bound_except_recover_witness :
    ("crypto", "hash") ∈ bind_syscalls_names false :=
  (crypto_surface_bound_except_recover false).1 ("crypto", "hash") (by decide) (by decide)

/-- C9: when debugging is disabled, `debug.log` and
`debug.store_artifact` return success immediately without reading
sandbox memory or invoking the kernel, for every `(offset, length)`
argument — including pairs exceeding the sandbox memory size, which
therefore do not produce an `IllegalArgument` failure on these
syscalls. -/
theorem debug_disabled_is_noop (k : DebugOps) (mem : Memory)
    (utf8 : List Nat → Option String) (a b c d e f : Nat)
    (hk : k.debug_enabled = false) :
    Debug.log k mem utf8 a b = (.ok (), []) ∧
    Debug.store_artifact k mem utf8 c d e f = (.ok (), []) := by
  constructor <;> simp [Debug.log, Debug.store_artifact, hk]

/-- Witness for C9: with debugging disabled, `(offset, length)` pairs
exceeding the (empty) sandbox memory still return success. -/
theorem debug_disabled_is_noop_witness :
    Debug.log ⟨false⟩ ⟨[]⟩ (fun _ => none) 7 9 = (.ok (), []) ∧
    Debug.store_artifact ⟨false⟩ ⟨[]⟩ (fun _ => none) 3 4 5 6 = (.ok (), []) :=
  debug_disabled_is_noop ⟨false⟩ ⟨[]⟩ (fun _ => none) 7 9 3 4 5 6 rfl

/-- C2 counterexample: `debug.log` takes its message as an
`(offset, length)` buffer argument, yet with debugging disabled an
out-of-range pair (`offset 1`, `length 1` against an empty sandbox
memory) returns success instead of failing with `IllegalArgument`. -/
theorem buffer_oob_not_always_illegal_argument :
    ((⟨[]⟩ : Memory).data.length < 1 + 1) ∧
    Debug.log ⟨false⟩ ⟨[]⟩ (fun _ => none) 1 1 = (.ok (), []) :=
  ⟨by decide, rfl⟩

/-- C2 amended: for every syscall argument buffer that is actually
resolved against sandbox memory — the debug buffers only when debugging
is enabled, the randomness entropy buffers always — an
`(offset, length)` pair with `offset + length` exceeding the memory size
makes the syscall fail with `IllegalArgument`, with no kernel operation
invoked (empty kernel trace) and no read or write of sandbox memory
performed.  For `store_artifact` this covers both of its buffers: the
out-of-range pair may be the data buffer (second conjunct) or the name
buffer, whatever the data buffer arguments (third conjunct, which in
particular covers an in-range data buffer with an out-of-range name
buffer). -/
theorem buffer_oob_illegal_argument (dk : DebugOps) (rk : RandomnessOps)
    (mem : Memory) (utf8 : List Nat → Option String)
    (off len name_off name_len data_off data_len : Nat) (pers round : Int)
    (hdbg : dk.debug_enabled = true)
    (hoob : mem.data.length < off + len) :
    Debug.log dk mem utf8 off len = (.error .illegalArgument, []) ∧
    Debug.store_artifact dk mem utf8 name_off name_len off len =
      (.error .illegalArgument, []) ∧
    Debug.store_artifact dk mem utf8 off len data_off data_len =
      (.error .illegalArgument, []) ∧
    Rand.get_chain_randomness rk mem pers round off len =
      (.error .illegalArgument, []) ∧
    Rand.get_beacon_randomness rk mem pers round off len =
      (.error .illegalArgument, []) := by
  have h : ¬ (off + len ≤ mem.data.length) := by omega
  refine ⟨?_, ?_, ?_, ?_, ?_⟩
  · simp [Debug.log, Memory.try_slice, hdbg, h]
  · simp [Debug.store_artifact, Memory.try_slice, hdbg, h]
  · by_cases hd : data_off + data_len ≤ mem.data.length
    · simp [Debug.store_artifact, Memory.try_slice, hdbg, hd, h]
    · simp [Debug.store_artifact, Memory.try_slice, hdbg, hd]
  · simp [Rand.get_chain_randomness, Memory.try_slice, h]
  · simp [Rand.get_beacon_randomness, Memory.try_slice, h]

/-- Witness for the amended C2 theorem: offset `0`, length `1` against
an empty sandbox memory, with debugging enabled; the third conjunct is
an out-of-range name buffer with an in-range (empty) data buffer. -/
theorem buffer_oob_illegal_argument_witness :
    Debug.log ⟨true⟩ ⟨[]⟩ (fun _ => some "") 0 1 = (.error .illegalArgument, []) ∧
    Debug.store_artifact ⟨true⟩ ⟨[]⟩ (fun _ => some "") 2 3 0 1 =
      (.error .illegalArgument, []) ∧
    Debug.store_artifact ⟨true⟩ ⟨[]⟩ (fun _ => some "") 0 1 0 0 =
      (.error .illegalArgument, []) ∧
    Rand.get_chain_randomness ⟨fun _ _ _ => .ok [], fun _ _ _ => .ok []⟩ ⟨[]⟩ 4 5 0 1 =
      (.error .illegalArgument, []) ∧
    Rand.get_beacon_randomness ⟨fun _ _ _ => .ok [], fun _ _ _ => .ok []⟩ ⟨[]⟩ 4 5 0 1 =
      (.error .illegalArgument, []) :=
  buffer_oob_illegal_argument ⟨true⟩ ⟨fun _ _ _ => .ok [], fun _ _ _ => .ok []⟩
    ⟨[]⟩ (fun _ => some "") 0 1 2 3 0 0 4 5 rfl (by decide)

/-- Reassembling a `u128` from its `u64` halves: the shift-or the code
performs equals `hi * 2 ^ 64 + lo` when `lo` fits in 64 bits. -/
theorem shiftLeft_or_eq_mul_add (hi lo : Nat) (hlo : lo < 2 ^ 64) :
    (hi <<< 64) ||| lo = hi * 2 ^ 64 + lo := by
  rw [Nat.shiftLeft_eq, Nat.mul_comm hi, ← Nat.mul_add_lt_is_or hlo hi, Nat.mul_comm]

/-- C8: given that the recipient address resolves, `send.send` returns
an ordinary result for every outcome of the kernel's send capability: a
kernel `Return(handle, stat)` yields exit code OK with that handle,
codec and size; a kernel `Abort(exit_code)` yields that exit code with
`return_id`, `return_codec` and `return_size` all zero; a kernel syscall
error propagates as an ordinary error result; and in each case the value
passed to the kernel equals `value_hi * 2 ^ 64 + value_lo`. -/
theorem send_syscall_spec (k : SendOps) (mem : Memory)
    (fromBytes : List Nat → Option Address)
    (recipient_off recipient_len method params_id value_hi value_lo : Nat)
    (recipient : Address)
    (hlo : value_lo < 2 ^ 64)
    (haddr : mem.read_address recipient_off recipient_len fromBytes = .ok recipient) :
    (∀ id stat,
      k.send recipient method params_id (value_hi * 2 ^ 64 + value_lo) =
        .ok (.sendReturn id stat) →
      Send.send k mem fromBytes recipient_off recipient_len method params_id
          value_hi value_lo =
        (.ok ⟨exitCodeOK, id, stat.codec, stat.size⟩,
         [.sendOp recipient method params_id (value_hi * 2 ^ 64 + value_lo)])) ∧
    (∀ code,
      k.send recipient method params_id (value_hi * 2 ^ 64 + value_lo) =
        .ok (.sendAbort code) →
      Send.send k mem fromBytes recipient_off recipient_len method params_id
          value_hi value_lo =
        (.ok ⟨code, 0, 0, 0⟩,
         [.sendOp recipient method params_id (value_hi * 2 ^ 64 + value_lo)])) ∧
    (∀ e,
      k.send recipient method params_id (value_hi * 2 ^ 64 + value_lo) = .error e →
      Send.send k mem fromBytes recipient_off recipient_len method params_id
          value_hi value_lo =
        (.error e,
         [.sendOp recipient method params_id (value_hi * 2 ^ 64 + value_lo)])) := by
  have hval : (value_hi <<< 64) ||| value_lo = value_hi * 2 ^ 64 + value_lo :=
    shiftLeft_or_eq_mul_add value_hi value_lo hlo
  refine ⟨fun id stat hk => ?_, fun code hk => ?_, fun e hk => ?_⟩ <;>
    simp only [Send.send, haddr, hval, hk]

/-- Witness for C8: a one-byte recipient buffer, the identity address
decoder, and a kernel whose send returns a receipt block. -/
theorem send_syscall_spec_witness :
    Send.send ⟨fun _ _ _ _ => .ok (.sendReturn 1 ⟨2, 3⟩)⟩ ⟨[0]⟩ (fun b => some b)
        0 1 7 8 1 1 =
      (.ok ⟨exitCodeOK, 1, 2, 3⟩, [.sendOp [0] 7 8 (1 * 2 ^ 64 + 1)]) :=
  (send_syscall_spec ⟨fun _ _ _ _ => .ok (.sendReturn 1 ⟨2, 3⟩)⟩ ⟨[0]⟩
    (fun b => some b) 0 1 7 8 1 1 [0] (by decide) rfl).1 1 ⟨2, 3⟩ rfl

/-- Helper: the result component of the extraction phase does not depend
on the backtrace (only the backtrace component does). -/
theorem validate_result_phase_fst_indep (res : Except ExecutionError InvocationResult)
    (bt1 bt2 : List CallFrame) :
    (validate_result_phase res bt1).1 = (validate_result_phase res bt2).1 := by
  cases res with
  | error e => rfl
  | ok r =>
    cases r with
    | invReturn v => rfl
    | invFailure c =>
      simp only [validate_result_phase]
      by_cases h : c.is_success = true
      · simp [h]
      · simp [h]

/-- C3: the claim says `validate_message` surfaces the accumulated
non-empty backtrace in its validation failure.  Code bug: on a
validation entrypoint that fails with exit code `1` under a one-frame
backtrace, the embedded `validate_message` returns the bare error
`actor failed to validate with TODO`; the `failure_info` the code
computes at that point — `Some(MessageBacktrace ...)`, as the second
conjunct shows — is bound and then discarded, and the third conjunct
shows the returned value is independent of the backtrace altogether, so
no backtrace is surfaced. -/
theorem validate_message_discards_backtrace :
    (validate_message (.ok (some 1)) (.ok []) ⟨.ok (.invFailure 1), 0, [⟨1, 2, 1, "boom"⟩]⟩
        (fun _ => none) = .error "actor failed to validate with TODO") ∧
    (validate_failure_info (.error none) [⟨1, 2, 1, "boom"⟩] =
      some (.messageBacktrace [⟨1, 2, 1, "boom"⟩])) ∧
    (∀ (lookup : Except String (Option Nat)) (marshal : Except Unit (List Nat))
      (res : Except ExecutionError InvocationResult) (gas : Int)
      (bt1 bt2 : List CallFrame) (d : List Nat → Option GasSpec),
      validate_message lookup marshal ⟨res, gas, bt1⟩ d =
        validate_message lookup marshal ⟨res, gas, bt2⟩ d) := by
  refine ⟨rfl, rfl, ?_⟩
  intro lookup marshal res gas bt1 bt2 d
  cases lookup with
  | error e => rfl
  | ok o =>
    cases o with
    | none => rfl
    | some sid =>
      cases marshal with
      | error u => rfl
      | ok params =>
        simp only [validate_message]
        rw [validate_result_phase_fst_indep res bt1 bt2]

/-- C4: on a successful validation return, `validate_message` clears
the backtrace (the post-phase backtrace is empty, so the computed
failure info is `none`) and returns the `GasSpec` the return payload
decodes to; when the payload fails to decode as a `GasSpec` it returns
the ordinary error `failed to unmarshall return data from validate` —
the same recoverable error channel a validation failure uses, not a
distinguished fatal host fault. -/
theorem validate_message_gas_spec (sid : Nat) (params : List Nat)
    (value : Option Block) (gas : Int) (bt : List CallFrame)
    (d : List Nat → Option GasSpec) :
    (validate_result_phase (.ok (.invReturn value)) bt).2 = [] ∧
    validate_failure_info (validate_result_phase (.ok (.invReturn value)) bt).1 [] = none ∧
    (∀ gs, d ((value.map Block.data).getD []) = some gs →
      validate_message (.ok (some sid)) (.ok params) ⟨.ok (.invReturn value), gas, bt⟩ d =
        .ok gs) ∧
    (d ((value.map Block.data).getD []) = none →
      validate_message (.ok (some sid)) (.ok params) ⟨.ok (.invReturn value), gas, bt⟩ d =
        .error "failed to unmarshall return data from validate") := by
  refine ⟨rfl, rfl, fun gs h => ?_, fun h => ?_⟩ <;>
    simp only [validate_message, validate_result_phase, h]

/-- Witness for C4: a decoder that accepts the empty payload, and one
that rejects it. -/
theorem validate_message_gas_spec_witness :
    validate_message (.ok (some 1)) (.ok []) ⟨.ok (.invReturn none), 0, []⟩
        (fun _ => some ⟨[9]⟩) = .ok ⟨[9]⟩ ∧
    validate_message (.ok (some 1)) (.ok []) ⟨.ok (.invReturn none), 0, []⟩
        (fun _ => none) = .error "failed to unmarshall return data from validate" :=
  ⟨(validate_message_gas_spec 1 [] none 0 [] (fun _ => some ⟨[9]⟩)).2.2.1 ⟨[9]⟩ rfl,
   (validate_message_gas_spec 1 [] none 0 [] (fun _ => none)).2.2.2 rfl⟩

/-- Helper: over an error-free store, `Hamt::get` returns the root
node's binding. -/
theorem hamt_get_eq [DecidableEq K] (m : Hamt K V) (key : K)
    (h : m.store.error_free = true) :
    m.get key = .ok (m.root.lookup key) := by
  simp only [Hamt.get, Node.getNode, h, if_true]
  cases m.root.lookup key <;> rfl

/-- Helper: replacing the binding of a present key makes it the found
entry. -/
theorem find_map_replace [DecidableEq K] (l : List (K × V)) (key : K) (value : V)
    (h : (l.find? (fun e => e.1 = key)).isSome) :
    (l.map (fun e => if e.1 = key then (key, value) else e)).find?
        (fun e => e.1 = key) = some (key, value) := by
  induction l with
  | nil => simp at h
  | cons hd tl ih =>
    by_cases hk : hd.1 = key
    · simp [hk]
    · simp only [List.map_cons, if_neg hk]
      rw [List.find?_cons_of_neg _ (by simpa using hk)]
      apply ih
      rwa [List.find?_cons_of_neg _ (by simpa using hk)] at h

/-- Helper: replacing the binding of `key` leaves the entry found for a
different key unchanged. -/
theorem find_map_replace_ne [DecidableEq K] (l : List (K × V)) (key k' : K) (value : V)
    (hne : k' ≠ key) :
    (l.map (fun e => if e.1 = key then (key, value) else e)).find?
        (fun e => e.1 = k') = l.find? (fun e => e.1 = k') := by
  induction l with
  | nil => rfl
  | cons hd tl ih =>
    by_cases hk : hd.1 = key
    · simp only [List.map_cons, if_pos hk]
      rw [List.find?_cons_of_neg _ (by simpa using Ne.symm hne),
        List.find?_cons_of_neg _ (by simpa [hk] using Ne.symm hne)]
      exact ih
    · simp only [List.map_cons, if_neg hk]
      by_cases hp : hd.1 = k'
      · rw [List.find?_cons_of_pos _ (by simpa using hp),
          List.find?_cons_of_pos _ (by simpa using hp)]
      · rw [List.find?_cons_of_neg _ (by simpa using hp),
          List.find?_cons_of_neg _ (by simpa using hp)]
        exact ih

/-- Helper: appending a binding for an absent key makes it the found
entry. -/
theorem find_append_absent [DecidableEq K] (l : List (K × V)) (key : K) (value : V)
    (h : l.find? (fun e => e.1 = key) = none) :
    (l ++ [(key, value)]).find? (fun e => e.1 = key) = some (key, value) := by
  rw [List.find?_append, h]
  simp

/-- Helper: appending a binding for `key` leaves the entry found for a
different key unchanged. -/
theorem find_append_ne [DecidableEq K] (l : List (K × V)) (key k' : K) (value : V)
    (hne : k' ≠ key) :
    (l ++ [(key, value)]).find? (fun e => e.1 = k') = l.find? (fun e => e.1 = k') := by
  rw [List.find?_append]
  have h1 : ([(key, value)] : List (K × V)).find? (fun e => e.1 = k') = none := by
    simp only [List.find?_singleton]
    simp [Ne.symm hne]
  rw [h1]
  cases l.find? (fun e => e.1 = k') <;> rfl

/-- Helper: `Hamt::get` on a literal HAMT over an error-free store. -/
theorem hamt_get_mk [DecidableEq K] (root : Node K V) (store : Blockstore) (bw : Nat)
    (key : K) (h : store.error_free = true) :
    (Hamt.mk root store bw).get key = .ok (root.lookup key) :=
  hamt_get_eq ⟨root, store, bw⟩ key h

/-- Helper: after replacing the binding of a present key, the node binds
it to the new value. -/
theorem node_lookup_map_replace [DecidableEq K] (n : Node K V) (key : K) (value : V)
    (h : (n.lookup key).isSome) :
    Node.lookup ⟨n.entries.map (fun e => if e.1 = key then (key, value) else e)⟩ key =
      some value := by
  have h2 : (n.entries.find? (fun e => e.1 = key)).isSome := by
    unfold Node.lookup at h
    cases hf : n.entries.find? (fun e => e.1 = key) with
    | none => rw [hf] at h; simp at h
    | some p => rfl
  show ((n.entries.map (fun e => if e.1 = key then (key, value) else e)).find?
      (fun e => e.1 = key)).map Prod.snd = some value
  rw [find_map_replace _ _ _ h2]
  rfl

/-- Helper: replacing the binding of `key` leaves the node's binding of
a different key unchanged. -/
theorem node_lookup_map_replace_ne [DecidableEq K] (n : Node K V) (key k' : K) (value : V)
    (hne : k' ≠ key) :
    Node.lookup ⟨n.entries.map (fun e => if e.1 = key then (key, value) else e)⟩ k' =
      n.lookup k' := by
  show ((n.entries.map (fun e => if e.1 = key then (key, value) else e)).find?
      (fun e => e.1 = k')).map Prod.snd =
    (n.entries.find? (fun e => e.1 = k')).map Prod.snd
  rw [find_map_replace_ne _ _ _ _ hne]

/-- Helper: after appending a binding for an absent key, the node binds
it to the new value. -/
theorem node_lookup_append_absent [DecidableEq K] (n : Node K V) (key : K) (value : V)
    (h : n.lookup key = none) :
    Node.lookup ⟨n.entries ++ [(key, value)]⟩ key = some value := by
  have h2 : n.entries.find? (fun e => e.1 = key) = none := by
    unfold Node.lookup at h
    cases hf : n.entries.find? (fun e => e.1 = key) with
    | none => rfl
    | some p => rw [hf] at h; simp at h
  show ((n.entries ++ [(key, value)]).find? (fun e => e.1 = key)).map Prod.snd =
    some value
  rw [find_append_absent _ _ _ h2]
  rfl

/-- Helper: appending a binding for `key` leaves the node's binding of a
different key unchanged. -/
theorem node_lookup_append_ne [DecidableEq K] (n : Node K V) (key k' : K) (value : V)
    (hne : k' ≠ key) :
    Node.lookup ⟨n.entries ++ [(key, value)]⟩ k' = n.lookup k' := by
  show ((n.entries ++ [(key, value)]).find? (fun e => e.1 = k')).map Prod.snd =
    (n.entries.find? (fun e => e.1 = k')).map Prod.snd
  rw [find_append_ne _ _ _ _ hne]

/-- Helper: the value of `Hamt::set` over an error-free store, by case
on whether the key is already bound. -/
theorem hamt_set_eq [DecidableEq K] (m : Hamt K V) (key : K) (value : V)
    (hstore : m.store.error_free = true) :
    m.set key value =
      match m.root.lookup key with
      | some o =>
        .ok (⟨⟨m.root.entries.map (fun e => if e.1 = key then (key, value) else e)⟩,
              m.store, m.bit_width⟩, some o)
      | none =>
        .ok (⟨⟨m.root.entries ++ [(key, value)]⟩, m.store, m.bit_width⟩, none) := by
  simp only [Hamt.set, Node.setNode, hstore, if_true]
  cases m.root.lookup key <;> rfl

/-- C10: over an error-free blockstore, whenever `set(k, v)` succeeds
returning `(m', old)`: `old` is the previous binding of `k` (`Some` of
the previously bound value when present, `None` when absent, as `get`
on the original HAMT confirms), `get(k)` on the updated HAMT returns
`Some v`, and the binding of every other key is unchanged. -/
theorem hamt_set_get_spec [DecidableEq K] (m : Hamt K V) (key k' : K) (value : V)
    (m' : Hamt K V) (old : Option V)
    (hstore : m.store.error_free = true) (hne : k' ≠ key)
    (hset : m.set key value = .ok (m', old)) :
    old = m.root.lookup key ∧
    m.get key = .ok old ∧
    m'.get key = .ok (some value) ∧
    m'.get k' = m.get k' := by
  have hget : m.get key = .ok (m.root.lookup key) := hamt_get_eq m key hstore
  rw [hamt_set_eq m key value hstore] at hset
  cases hl : m.root.lookup key with
  | some o =>
    rw [hl] at hset
    have h1 := Except.ok.inj hset
    have hm' := congrArg Prod.fst h1
    have hold := congrArg Prod.snd h1
    simp only at hm' hold
    subst hm' hold
    refine ⟨rfl, by rw [hget, hl], ?_, ?_⟩
    · rw [hamt_get_mk _ _ _ _ hstore,
        node_lookup_map_replace m.root key value (by rw [hl]; rfl)]
    · rw [hamt_get_mk _ _ _ _ hstore,
        node_lookup_map_replace_ne m.root key k' value hne,
        hamt_get_eq m k' hstore]
  | none =>
    rw [hl] at hset
    have h1 := Except.ok.inj hset
    have hm' := congrArg Prod.fst h1
    have hold := congrArg Prod.snd h1
    simp only at hm' hold
    subst hm' hold
    refine ⟨rfl, by rw [hget, hl], ?_, ?_⟩
    · rw [hamt_get_mk _ _ _ _ hstore,
        node_lookup_append_absent m.root key value hl]
    · rw [hamt_get_mk _ _ _ _ hstore,
        node_lookup_append_ne m.root key k' value hne,
        hamt_get_eq m k' hstore]

/-- Witness for C10: a HAMT over an error-free store holding `1 ↦ 10`,
setting the absent key `2` to `20` and checking key `1`. -/
theorem hamt_set_get_spec_witness :
    (none : Option Nat) = (⟨[(1, 10)]⟩ : Node Nat Nat).lookup 2 ∧
    (⟨⟨[(1, 10)]⟩, ⟨true⟩, 8⟩ : Hamt Nat Nat).get 2 = .ok none ∧
    (⟨⟨[(1, 10), (2, 20)]⟩, ⟨true⟩, 8⟩ : Hamt Nat Nat).get 2 = .ok (some 20) ∧
    (⟨⟨[(1, 10), (2, 20)]⟩, ⟨true⟩, 8⟩ : Hamt Nat Nat).get 1 =
      (⟨⟨[(1, 10)]⟩, ⟨true⟩, 8⟩ : Hamt Nat Nat).get 1 :=
  hamt_set_get_spec ⟨⟨[(1, 10)]⟩, ⟨true⟩, 8⟩ 2 1 20
    ⟨⟨[(1, 10), (2, 20)]⟩, ⟨true⟩, 8⟩ none rfl (by decide) rfl

end RefFVM
